import Mathlib

set_option maxRecDepth 100000

/-!
# Verification of the DSİ yearbook extraction scripts

Shallow embedding, over `List Char`, of the parsing heuristics of the
repository's station-record extraction scripts:

* `CE48C_flow_data/flow_data/catchment_data_km2/catchment_data_km2.py`
* `CE48C_flow_data/flow_data/flow_data_m3sn/new_pdf_reader_2020.py`
* `CE48C_flow_data/flow_data/table_below/table_arranger.py`
* `CE48C_self_working/scripts/dsi_final_structured_extractor.py`
* `ce_48c/CE48C_self_working/scripts/pdf_flow_extractor.py`

Python floats are modelled as exact decimals (`Dec`, a mantissa over a
power-of-ten denominator): every number the scripts parse is a finite
decimal string, so this model is exact and avoids float rounding; the
rational value of a `Dec` is available as `Dec.toRat` for statements
about signs and distinctness.  Python `\d` is modelled as the ASCII
digits (the yearbooks only contain ASCII digits), and case-insensitive
regex classes are modelled on ASCII plus the Turkish letters actually
used by the patterns.  A raised exception is modelled as `none` /
`Except.error`.
-/

/-- An exact decimal number `m / 10 ^ e`: the model of the Python floats
produced by the scripts' numeric parsing.  Two parses of the same digit
string yield the same `Dec`, so `Dec` equality is float equality. -/
structure Dec where
  m : Int
  e : Nat
deriving DecidableEq, Repr

/-- The rational value of a decimal. -/
def Dec.toRat (d : Dec) : ℚ :=
  (d.m : ℚ) / (10 : ℚ) ^ d.e

/-- The float literal `0.0`. -/
def Dec.zero : Dec := ⟨0, 0⟩

theorem Dec.toRat_neg_iff (d : Dec) : d.toRat < 0 ↔ d.m < 0 := by
  have hp : (0 : ℚ) < (10 : ℚ) ^ d.e := by positivity
  rw [Dec.toRat, div_neg_iff]
  constructor
  · rintro (⟨-, h⟩ | ⟨h, -⟩)
    · exact absurd hp (not_lt.mpr h.le)
    · exact_mod_cast h
  · intro h
    exact Or.inr ⟨by exact_mod_cast h, hp⟩

theorem Dec.toRat_nonneg_of (d : Dec) (h : 0 ≤ d.m) : 0 ≤ d.toRat := by
  have := (Dec.toRat_neg_iff d).not
  rw [not_lt, not_lt] at this
  exact this.mpr h

theorem Dec.toRat_ne_zero_of (d : Dec) (h : ¬ d.m = 0) : ¬ d.toRat = 0 := by
  intro hq
  apply h
  have hp : ¬ ((10 : ℚ) ^ d.e) = 0 := by positivity
  have := (div_eq_zero_iff.mp hq).resolve_right hp
  exact_mod_cast this

/-- The whitespace characters recognised by Python's `str.strip()` /
regex `\s` on the ASCII range: space, tab, newline, carriage return,
form feed and vertical tab. -/
def isPySpace (c : Char) : Bool :=
  c = ' ' ∨ c = '\t' ∨ c = '\n' ∨ c = '\r' ∨ c = '\x0c' ∨ c = '\x0b'

/-- Python `str.strip()`: drop leading and trailing whitespace. -/
def pyStrip (l : List Char) : List Char :=
  ((l.dropWhile isPySpace).reverse.dropWhile isPySpace).reverse

/-- `str.replace(",", ".")`. -/
def replaceCommaDot (l : List Char) : List Char :=
  l.map (fun c => if c = ',' then '.' else c)

/-- `str.replace(" ", "")` (removes only the plain space character). -/
def removeSpaces (l : List Char) : List Char :=
  l.filter (fun c => ¬ c = ' ')

/-- Python `str.upper()` on the characters that occur in this corpus:
ASCII letters plus the lowercase Turkish letters used by the yearbooks.
Other characters are left unchanged. -/
def pyUpper (c : Char) : Char :=
  if c = 'ğ' then 'Ğ'
  else if c = 'ş' then 'Ş'
  else if c = 'ı' then 'I'
  else if c = 'ö' then 'Ö'
  else if c = 'ü' then 'Ü'
  else if c = 'ç' then 'Ç'
  else c.toUpper

/-- ASCII-case-insensitive character comparison, as used by
`re.IGNORECASE` on the ASCII letters of the patterns. -/
def asciiCI (a b : Char) : Bool :=
  a.toLower = b.toLower

/-- Numeric value of a (possibly empty) ASCII digit string. -/
def digitsVal (l : List Char) : ℕ :=
  l.foldl (fun acc c => 10 * acc + (c.toNat - '0'.toNat)) 0

/-- Model of Python `float()` on plain decimal strings: an optional
sign, then digits with at most one dot, at least one digit overall and
nothing else.  `none` models the `ValueError` raised on any other
string.  (The scripts only ever feed `float()` captures drawn from
`[0-9.,-]`; scientific notation, `inf`/`nan` and surrounding whitespace
never reach it.) -/
def parseFloat (s : List Char) : Option Dec :=
  let neg : Bool := s.head? = some '-'
  let s1 := if s.head? = some '-' ∨ s.head? = some '+' then s.tail else s
  let sgn : Int := if neg then -1 else 1
  let intPart := s1.takeWhile Char.isDigit
  let rest := s1.dropWhile Char.isDigit
  if rest = [] then
    if intPart = [] then none
    else some ⟨sgn * digitsVal intPart, 0⟩
  else if rest.head? = some '.' then
    let r2 := rest.tail
    let frac := r2.takeWhile Char.isDigit
    let rest2 := r2.dropWhile Char.isDigit
    if ¬ rest2 = [] then none
    else if intPart = [] ∧ frac = [] then none
    else some ⟨sgn * (digitsVal intPart * 10 ^ frac.length + digitsVal frac), frac.length⟩
  else none

/-- Maximal runs of characters satisfying `p` (the model of
`re.findall` for a one-character-class pattern like `[\d.]+`).
Accumulator formulation, structurally recursive so that it reduces in
the kernel. -/
def runsGo (p : Char → Bool) (acc : List Char) : List Char → List (List Char)
  | [] => if acc = [] then [] else [acc.reverse]
  | c :: cs =>
    if p c then runsGo p (c :: acc) cs
    else if acc = [] then runsGo p [] cs
    else acc.reverse :: runsGo p [] cs

/-- `re.findall(r"[…]+", s)` for a character class `p`. -/
def runs (p : Char → Bool) (l : List Char) : List (List Char) :=
  runsGo p [] l

/-- Python `str.split()` (split on whitespace runs, dropping empties). -/
def pySplit (l : List Char) : List (List Char) :=
  runs (fun c => ¬ isPySpace c) l

/-!
## The numeric normalizers (claims C3, C10)
-/

/-- `clean_num` of `catchment_data_km2.py` (lines 39–41):
```python
def clean_num(x: str):
    return float(x.strip().replace(",", "."))
```
`none` models the raised `ValueError`. -/
def clean_num (x : List Char) : Option Dec :=
  parseFloat (replaceCommaDot (pyStrip x))

/-- `clean_num` of `table_arranger.py` (lines 16–27):
```python
def clean_num(x):
    if not isinstance(x, str): return None
    x = x.strip().replace(",", ".")
    if x.upper() == "KURU" or x == "nan" or not x: return None
    try: return float(x)
    except: return None
```
(the string branch — the callers only pass strings; the reassigned
`x = x.strip().replace(",", ".")` is written out at each use). -/
def clean_num_ta (x : List Char) : Option Dec :=
  if (replaceCommaDot (pyStrip x)).map pyUpper = "KURU".data ∨
     replaceCommaDot (pyStrip x) = "nan".data ∨ replaceCommaDot (pyStrip x) = [] then none
  else parseFloat (replaceCommaDot (pyStrip x))

/-- `_normalize_number` of `dsi_final_structured_extractor.py`
(lines 79–94):
```python
def _normalize_number(self, text):
    if not text or text.strip() == '': return None
    text = text.strip().replace(',', '.').replace(' ', '')
    numbers = re.findall(r'[\d.]+', text)
    if numbers:
        try: return float(numbers[0])
        except ValueError: return None
    return None
```
-/
def normalize_number (t : List Char) : Option Dec :=
  if t = [] ∨ pyStrip t = [] then none
  else
    match runs (fun c => c.isDigit ∨ c = '.') (removeSpaces (replaceCommaDot (pyStrip t))) with
    | [] => none
    | n :: _ => parseFloat n

/-- Attempt to match `\d+\.?\d*` at the head of `l` (greedy). -/
def numCore (l : List Char) : Option (List Char) :=
  let ds := l.takeWhile Char.isDigit
  if ds = [] then none
  else
    match l.dropWhile Char.isDigit with
    | '.' :: r2 => some (ds ++ '.' :: r2.takeWhile Char.isDigit)
    | _ => some ds

/-- Attempt to match `-?\d+\.?\d*` at the head of `l`. -/
def numMatchAt (l : List Char) : Option (List Char) :=
  match l with
  | '-' :: rest =>
    match numCore rest with
    | some m => some ('-' :: m)
    | none => none
  | _ => numCore l

/-- The first (leftmost) match of `-?\d+\.?\d*` in `l`, i.e.
`re.findall(...)[0]` when a match exists. -/
def findFirstNum : List Char → Option (List Char)
  | [] => none
  | c :: cs =>
    match numMatchAt (c :: cs) with
    | some m => some m
    | none => findFirstNum cs

/-- `extract_number` of `new_pdf_reader_2020.py` (lines 57–75):
```python
def extract_number(text, allow_negative=False):
    if not text or text.strip() in ["KURU", "-----", ""]: return 0.0
    text = text.replace(",", ".")
    numbers = re.findall(r"-?\d+\.?\d*", text)
    if numbers:
        try:
            value = float(numbers[0])
            if not allow_negative and value < 0: return 0.0
            return value
        except (ValueError, IndexError): return 0.0
    return 0.0
```
The `Option` return type mirrors the `Optional[float]` annotation; note
that every branch of the source returns a float.  `value < 0` on a
`Dec` is `m < 0` (`Dec.toRat_neg_iff`). -/
def extract_number (text : List Char) (allow_negative : Bool) : Option Dec :=
  if text = [] ∨ pyStrip text = "KURU".data ∨ pyStrip text = "-----".data ∨
     pyStrip text = [] then some Dec.zero
  else
    match (findFirstNum (replaceCommaDot text)).bind parseFloat with
    | none => some Dec.zero
    | some v => if allow_negative = false ∧ v.m < 0 then some Dec.zero else some v

example : clean_num "210,00".data = some ⟨21000, 2⟩ := by decide
example : clean_num ",,".data = none := by decide
example : normalize_number "210,00".data = some ⟨21000, 2⟩ := by decide
example : clean_num_ta "KURU".data = none := by decide
example : clean_num_ta "66,32".data = some ⟨6632, 2⟩ := by decide
example : extract_number "2,10".data false = some ⟨210, 2⟩ := by decide
example : extract_number "KURU".data false = some Dec.zero := by decide
example : extract_number "-3,5".data false = some Dec.zero := by decide
example : extract_number "abc".data false = some Dec.zero := by decide

/-!
## Page lines and the station locator (claims C1, C5, C9)
-/

/-- `str.splitlines()`, modelled on `'\n'` (the only line break PyMuPDF
emits).  Python drops a final empty piece after a trailing newline; the
callers filter empty lines right after, so the difference is
immaterial. -/
def splitLinesGo (acc : List Char) : List Char → List (List Char)
  | [] => [acc.reverse]
  | c :: cs =>
    if c = '\n' then acc.reverse :: splitLinesGo [] cs
    else splitLinesGo (c :: acc) cs

/-- `text.splitlines()`. -/
def splitLines (text : List Char) : List (List Char) :=
  splitLinesGo [] text

/-- `[ln.strip() for ln in text.splitlines() if ln.strip()]`
(`catchment_data_km2.py` line 53, `new_pdf_reader_2020.py` line 270). -/
def toLines (text : List Char) : List (List Char) :=
  (splitLines text).map pyStrip |>.filter (fun l => ¬ l = [])

/-- `re.match(r"^([DE]\d{2}A\d{3})\s", line)` of `catchment_data_km2.py`
line 56: the captured group. -/
def matchStationLine (l : List Char) : Option (List Char) :=
  match l with
  | c1 :: c2 :: c3 :: c4 :: c5 :: c6 :: c7 :: c8 :: _ =>
    if (c1 = 'D' ∨ c1 = 'E') ∧ c2.isDigit ∧ c3.isDigit ∧ c4 = 'A' ∧
       c5.isDigit ∧ c6.isDigit ∧ c7.isDigit ∧ isPySpace c8 then
      some [c1, c2, c3, c4, c5, c6, c7]
    else none
  | _ => none

/-- The pattern exactly as claim C1 words it: `^[DE]\d{2}A\d{3}` with no
trailing-whitespace requirement. -/
def matchStationHead (l : List Char) : Option (List Char) :=
  match l with
  | c1 :: c2 :: c3 :: c4 :: c5 :: c6 :: c7 :: _ =>
    if (c1 = 'D' ∨ c1 = 'E') ∧ c2.isDigit ∧ c3.isDigit ∧ c4 = 'A' ∧
       c5.isDigit ∧ c6.isDigit ∧ c7.isDigit then
      some [c1, c2, c3, c4, c5, c6, c7]
    else none
  | _ => none

/-- The station-locating skeleton of `extract_catchments`
(`catchment_data_km2.py` lines 54–62): scan the page's non-empty
stripped lines from the top; a line that fails the station regex, or
matches it with a code outside the target set, is passed over
(`continue`) and scanning goes on with the next line. -/
def locateStation (targets : List (List Char)) : List (List Char) → Option (List Char)
  | [] => none
  | l :: ls =>
    match matchStationLine l with
    | none => locateStation targets ls
    | some code =>
      if code.map pyUpper ∈ targets then some (code.map pyUpper)
      else locateStation targets ls

/-- The first line of the page matching the station pattern, regardless
of the target set (used to state claim C1's own words). -/
def firstStationMatch : List (List Char) → Option (List Char)
  | [] => none
  | l :: ls =>
    match matchStationHead l with
    | some c => some c
    | none => firstStationMatch ls

/-- The locator exactly as claim C1 describes it: take the FIRST line
matching `^[DE]\d{2}A\d{3}`; proceed with its code exactly when that
code is in the target set, otherwise return "not found" (skip the
page). -/
def locateStationClaim (targets : List (List Char)) (lines : List (List Char)) :
    Option (List Char) :=
  match firstStationMatch lines with
  | some c => if c ∈ targets then some c else none
  | none => none

/-!
## The catchment-area extractor (`catchment_data_km2.py`, claims C4, C5, C9)
-/

/-- Characters of the capture class `[0-9\.,]` of the YAĞIŞ ALANI
regex. -/
def isNumCapChar (c : Char) : Bool :=
  c.isDigit ∨ c = '.' ∨ c = ','

/-- Continuation of `matchYagisAt` after the word `YAĞIŞ`:
`\s*ALANI\s*:\s*([0-9\.,]+)` (case-insensitive). -/
def matchYagisTail (r1 : List Char) : Option (List Char) :=
  match r1 with
  | a1 :: a2 :: a3 :: a4 :: a5 :: r2 =>
    if asciiCI a1 'A' ∧ asciiCI a2 'L' ∧ asciiCI a3 'A' ∧ asciiCI a4 'N' ∧
       asciiCI a5 'I' then
      match r2.dropWhile isPySpace with
      | ':' :: r4 =>
        let cap := (r4.dropWhile isPySpace).takeWhile isNumCapChar
        if cap = [] then none else some cap
      | _ => none
    else none
  | _ => none

/-- Attempt `YA[GĞ]I[SŞ]\s*ALANI\s*:\s*([0-9\.,]+)` (with
`re.IGNORECASE`) at the head of `l`; returns the capture group. -/
def matchYagisAt (l : List Char) : Option (List Char) :=
  match l with
  | c1 :: c2 :: c3 :: c4 :: c5 :: rest =>
    if asciiCI c1 'Y' ∧ asciiCI c2 'A' ∧
       (c3 = 'G' ∨ c3 = 'g' ∨ c3 = 'Ğ' ∨ c3 = 'ğ') ∧ asciiCI c4 'I' ∧
       (c5 = 'S' ∨ c5 = 's' ∨ c5 = 'Ş' ∨ c5 = 'ş') then
      matchYagisTail (rest.dropWhile isPySpace)
    else none
  | _ => none

/-- `re.search` of the YAĞIŞ ALANI pattern: leftmost match. -/
def searchYagis : List Char → Option (List Char)
  | [] => none
  | c :: cs =>
    match matchYagisAt (c :: cs) with
    | some cap => some cap
    | none => searchYagis cs

/-- Python's `pat in s` substring test. -/
def containsSub (pat : List Char) : List Char → Bool
  | [] => decide (pat = [])
  | c :: cs => pat.isPrefixOf (c :: cs) || containsSub pat cs

/-- `"YAĞIŞ ALANI" in lines[j].upper() or "YAGIS ALANI" in lines[j].upper()`
(`catchment_data_km2.py` line 65). -/
def containsYagis (l : List Char) : Bool :=
  let u := l.map pyUpper
  containsSub "YAĞIŞ ALANI".data u ∨ containsSub "YAGIS ALANI".data u

/-- The inner `for j in range(i, min(i + 10, len(lines)))` loop of
`extract_catchments` on the 10-line window: `none` when no line of the
window mentions YAĞIŞ ALANI, `some r` when a line does (the loop then
`break`s), with `r` the regex capture if any. -/
def findYagisWindow : List (List Char) → Option (Option (List Char))
  | [] => none
  | l :: rest =>
    if containsYagis l then some (searchYagis l) else findYagisWindow rest

instance {ε α : Type} [DecidableEq ε] [DecidableEq α] : DecidableEq (Except ε α) := fun x y =>
  match x, y with
  | .error a, .error b =>
    if h : a = b then isTrue (by rw [h]) else isFalse (fun hc => h (Except.error.inj hc))
  | .error _, .ok _ => isFalse (fun hc => Except.noConfusion hc)
  | .ok _, .error _ => isFalse (fun hc => Except.noConfusion hc)
  | .ok a, .ok b =>
    if h : a = b then isTrue (by rw [h]) else isFalse (fun hc => h (Except.ok.inj hc))

/-- One output row of `extract_catchments`. -/
structure CatchRecord where
  station_code : List Char
  catchment_area_km2 : Dec
  page : Nat
deriving DecidableEq, Repr

/-- The `for i, line in enumerate(lines)` loop of `extract_catchments`
(`catchment_data_km2.py` lines 54–77), scanning the suffix of `lines`
that starts at index `i`.  `Except.error ()` models the `ValueError`
raised by `clean_num` on an unparseable capture, which the script does
not catch. -/
def catchScan (targets : List (List Char)) (lines : List (List Char)) (pno : Nat) :
    List (List Char) → Nat → Except Unit (List CatchRecord)
  | [], _ => .ok []
  | l :: ls, i =>
    match matchStationLine l with
    | none => catchScan targets lines pno ls (i + 1)
    | some code =>
      if code.map pyUpper ∈ targets then
        match findYagisWindow ((lines.drop i).take 10) with
        | some (some cap) =>
          match clean_num cap with
          | none => .error ()
          | some v =>
            match catchScan targets lines pno ls (i + 1) with
            | .error e => .error e
            | .ok rs => .ok (⟨code.map pyUpper, v, pno⟩ :: rs)
        | _ => catchScan targets lines pno ls (i + 1)
      else catchScan targets lines pno ls (i + 1)

/-- The page loop of `extract_catchments` (`catchment_data_km2.py`
lines 44–78): pages whose text strips to nothing are skipped; records of
all pages are accumulated in order; the stored page number is 1-based. -/
def catchPages (targets : List (List Char)) : List (List Char) → Nat → Except Unit (List CatchRecord)
  | [], _ => .ok []
  | text :: rest, pno =>
    if pyStrip text = [] then catchPages targets rest (pno + 1)
    else
      match catchScan targets (toLines text) (pno + 1) (toLines text) 0 with
      | .error e => .error e
      | .ok rs =>
        match catchPages targets rest (pno + 1) with
        | .error e => .error e
        | .ok rest2 => .ok (rs ++ rest2)

/-- `extract_catchments(pdf_path)` on the list of per-page texts. -/
def extract_catchments (targets : List (List Char)) (pages : List (List Char)) :
    Except Unit (List CatchRecord) :=
  catchPages targets pages 0

/-- Observable outcome of one run of the `catchment_data_km2.py`
`__main__` block (lines 81–92). -/
inductive RunOutcome where
  /-- `[ERROR] ... not found.` printed; nothing is processed. -/
  | missingInput : RunOutcome
  /-- `[WARN] No YAĞIŞ ALANI found.` printed; no file written. -/
  | warnedEmpty : RunOutcome
  /-- `df.to_csv(...)` executed with these rows. -/
  | wrote : List CatchRecord → RunOutcome
  /-- an uncaught exception terminated the script. -/
  | crashed : RunOutcome
deriving DecidableEq, Repr

/-- The `__main__` block of `catchment_data_km2.py`:
```python
if not pdf_path.exists(): print(f"[ERROR] … not found.")
else:
    df = extract_catchments(pdf_path)
    if df.empty: print("[WARN] No YAĞIŞ ALANI found.")
    else: df.to_csv(OUTPUT_NAME, …)
```
-/
def catchmentMain (inputExists : Bool) (targets : List (List Char))
    (pages : List (List Char)) : RunOutcome :=
  if inputExists = false then .missingInput
  else
    match extract_catchments targets pages with
    | .error _ => .crashed
    | .ok [] => .warnedEmpty
    | .ok (r :: rs) => .wrote (r :: rs)

/-- The output file of a catchment run: present only in the `wrote`
outcome. -/
def outcomeFile : RunOutcome → Option (List CatchRecord)
  | .wrote rs => some rs
  | _ => none

example :
    extract_catchments ["D22A093".data] ["D22A093 X\nYAĞIŞ ALANI : 210,00 km2".data] =
      .ok [⟨"D22A093".data, ⟨21000, 2⟩, 1⟩] := by decide
example :
    extract_catchments ["D22A093".data] ["D22A093 X\nYAĞIŞ ALANI : ,,".data] =
      .error () := by decide
example :
    locateStation ["D22A093".data] (toLines "E99A999 FOO\nD22A093 BAR".data) =
      some "D22A093".data := by decide
example :
    locateStationClaim ["D22A093".data] (toLines "E99A999 FOO\nD22A093 BAR".data) =
      none := by decide

/-!
## Station code and name extraction (claims C5, C6)
-/

/-- `[A-Z]` (ASCII uppercase letter). -/
def isUpperAscii (c : Char) : Bool :=
  'A' ≤ c ∧ c ≤ 'Z'

/-- `re.match(r"([A-Z]\d{2}[A-Z]\d{3})\s+(.+)", line)` of
`extract_station_info` (`new_pdf_reader_2020.py` line 89): code and the
second capture group.  When everything after the code is whitespace,
`\s+` backtracks so that `(.+)` still captures one whitespace character;
the caller strips the name afterwards. -/
def matchStationInfo (l : List Char) : Option (List Char × List Char) :=
  match l with
  | c1 :: c2 :: c3 :: c4 :: c5 :: c6 :: c7 :: rest =>
    if isUpperAscii c1 ∧ c2.isDigit ∧ c3.isDigit ∧ isUpperAscii c4 ∧
       c5.isDigit ∧ c6.isDigit ∧ c7.isDigit then
      let ws := rest.takeWhile isPySpace
      let nm := rest.dropWhile isPySpace
      if ws = [] then none
      else if ¬ nm = [] then some ([c1, c2, c3, c4, c5, c6, c7], nm)
      else if 2 ≤ ws.length then some ([c1, c2, c3, c4, c5, c6, c7], [ws.getLastD ' '])
      else none
    else none
  | _ => none

/-- `extract_station_info` of `new_pdf_reader_2020.py` (lines 78–95):
the first line that matches the station pattern yields
`{"station_code": g1, "station_name": g2.strip()}`. -/
def extract_station_info : List (List Char) → Option (List Char × List Char)
  | [] => none
  | l :: ls =>
    let l1 := pyStrip l
    if l1 = [] then extract_station_info ls
    else
      match matchStationInfo l1 with
      | some (code, nm) => some (code, pyStrip nm)
      | none => extract_station_info ls

/-- Leftmost match of `[A-Z]\d{2}[A-Z]\d{3}` anywhere in the line
(`re.search` / `re.findall(...)[0]`, as in `_extract_station_code` of
`dsi_final_structured_extractor.py` lines 96–102 and
`parse_station_info` of `pdf_flow_extractor.py`). -/
def findCode7 : List Char → Option (List Char)
  | c1 :: c2 :: c3 :: c4 :: c5 :: c6 :: c7 :: rest =>
    if isUpperAscii c1 ∧ c2.isDigit ∧ c3.isDigit ∧ isUpperAscii c4 ∧
       c5.isDigit ∧ c6.isDigit ∧ c7.isDigit then
      some [c1, c2, c3, c4, c5, c6, c7]
    else
      findCode7 (c2 :: c3 :: c4 :: c5 :: c6 :: c7 :: rest)
  | _ => none

/-- `str.replace(pat, "")`: remove every (leftmost-first,
non-overlapping) occurrence of `pat`.  Fuel-indexed so that the
recursion is structural and reduces in the kernel; the fuel
`l.length` is always sufficient because each step consumes at least one
character. -/
def replaceSubGo (pat : List Char) : Nat → List Char → List Char
  | 0, l => l
  | _ + 1, [] => []
  | fuel + 1, c :: cs =>
    if ¬ pat = [] ∧ pat.isPrefixOf (c :: cs) then
      replaceSubGo pat fuel ((c :: cs).drop pat.length)
    else c :: replaceSubGo pat fuel cs

/-- `line.replace(pat, '')`. -/
def replaceSub (pat l : List Char) : List Char :=
  replaceSubGo pat l.length l

/-- `re.sub(r'\s+', ' ', s)`: collapse each maximal whitespace run to a
single space.  The flag records whether we are inside a run. -/
def collapseWsGo : Bool → List Char → List Char
  | _, [] => []
  | inRun, c :: cs =>
    if isPySpace c then
      if inRun then collapseWsGo true cs else ' ' :: collapseWsGo true cs
    else c :: collapseWsGo false cs

/-- `re.sub(r'\s+', ' ', s)`. -/
def collapseWs (l : List Char) : List Char :=
  collapseWsGo false l

/-- `parse_station_info` of `pdf_flow_extractor.py` (lines 62–70):
```python
station_match = re.search(r'([A-Z]\d{2}[A-Z]\d{3})', line)
if station_match:
    station_code = station_match.group(1)
    station_name = line.replace(station_code, '').strip()
    station_name = re.sub(r'\s+', ' ', station_name).strip()
    return station_code, station_name
return None, None
```
-/
def parse_station_info (line : List Char) : Option (List Char) × Option (List Char) :=
  match findCode7 line with
  | some code => (some code, some (pyStrip (collapseWs (pyStrip (replaceSub code line)))))
  | none => (none, none)

/-- The elements of a list that sit at even indices
(`range(0, …, 2)`). -/
def evenIdx : List α → List α
  | [] => []
  | [a] => [a]
  | a :: _ :: rest => a :: evenIdx rest

/-- The station-search loop of `_extract_station_data_structured`
(`dsi_final_structured_extractor.py` lines 196–216) on a list of
candidate lines: the first line whose leftmost code pattern is in the
target set wins; a matching line with a code outside the set is passed
over and scanning continues.  Returns the code and the optional
station name (`line.replace(code, '').strip()` when non-empty). -/
def structuredFindGo (targets : List (List Char)) : List (List Char) → Option (List Char × Option (List Char))
  | [] => none
  | l :: ls =>
    match findCode7 l with
    | some code =>
      if code ∈ targets then
        let np := pyStrip (replaceSub code l)
        some (code, if ¬ np = [] then some np else none)
      else structuredFindGo targets ls
    | none => structuredFindGo targets ls

/-- `_extract_station_data_structured`'s station search: every 2nd row
of the first 20 lines (`for i in range(0, min(20, len(lines)), 2)`). -/
def structuredFindStation (targets : List (List Char)) (lines : List (List Char)) :
    Option (List Char × Option (List Char)) :=
  structuredFindGo targets (evenIdx (lines.take 20))

/-- The station gate of `parse_station_page`
(`new_pdf_reader_2020.py` lines 258–276): station info is taken from
`lines[1:5]`; a code outside `ALLOWED_STATIONS` makes the page return
`None` (skipped). -/
def parseStationGate (targets : List (List Char)) (lines : List (List Char)) :
    Option (List Char) :=
  match extract_station_info ((lines.drop 1).take 4) with
  | none => none
  | some (code, _) => if code ∈ targets then some code else none

example :
    extract_station_info ["D22A093 TURNASUYU CUMHURİYET KÖYÜ".data] =
      some ("D22A093".data, "TURNASUYU CUMHURİYET KÖYÜ".data) := by decide
example :
    parse_station_info "D22A093 TURNASUYU CUMHURİYET KÖYÜ".data =
      (some "D22A093".data, some "TURNASUYU CUMHURİYET KÖYÜ".data) := by decide
example :
    structuredFindStation ["D22A093".data] ["junk".data, "D99A999 A".data, "x".data, "D22A093 B".data, "y".data] =
      none := by decide
example :
    structuredFindStation ["D22A093".data] ["junk".data, "x".data, "D22A093 B".data] =
      some ("D22A093".data, some "B".data) := by decide

/-!
## The structured extractor's CSV assembly (claims C4, C7)
-/

/-- `self.months` of `dsi_final_structured_extractor.py` (water-year
order). -/
def sMonths : List (List Char) :=
  ["oct", "nov", "dec", "jan", "feb", "mar",
   "apr", "may", "jun", "jul", "aug", "sep"].map String.data

/-- `self.metrics` of `dsi_final_structured_extractor.py`. -/
def sMetrics : List (List Char) :=
  ["flow_max", "flow_min", "flow_avg", "ltsnkm2", "akim_mm", "milm3"].map String.data

/-- The monthly column name `f"{month}_{metric}_m3"`. -/
def sKey (month metric : List Char) : List Char :=
  month ++ '_' :: (metric ++ "_m3".data)

/-- The CSV header row written by `_initialize_csv`
(`dsi_final_structured_extractor.py` lines 58–77): 11 metadata columns
then the 72 monthly columns, metric first. -/
def csvHeaders : List (List Char) :=
  (["file", "page", "year", "station_code", "station_name", "coordinates",
    "catchment_area_km2", "annual_avg_flow_m3s", "annual_total_m3",
    "mm_total", "avg_ltsnkm2"].map String.data) ++
  sMetrics.flatMap (fun metric => sMonths.map (fun month => sKey month metric))

/-- Association-list lookup: `some v` when the key is present with
value `v`, `none` when absent. -/
def alookup {α : Type} (k : List Char) : List (List Char × α) → Option α
  | [] => none
  | (k1, v) :: rest => if k1 = k then some v else alookup k rest

/-- `dict.get(key)` on a dictionary whose values are optional floats:
an absent key and a stored `None` both give `None`. -/
def dictGet (k : List Char) (md : List (List Char × Option Dec)) : Option Dec :=
  match alookup k md with
  | some v => v
  | none => none

/-- The result dictionary built by `_extract_station_data_structured`:
the extracted (possibly absent) fields of one station page.  `monthly`
holds the `f"{month}_{metric}_m3"` entries. -/
structure StructData where
  file : List Char
  page : Nat
  year : Int
  station_code : List Char
  station_name : List Char
  coordinates : List Char
  catchment_area_km2 : Option Dec
  annual_avg_flow_m3s : Option Dec
  annual_total_m3 : Option Dec
  mm_total : Option Dec
  avg_ltsnkm2 : Option Dec
  monthly : List (List Char × Option Dec)
deriving DecidableEq, Repr

/-- One CSV cell as `csv.writer` renders it: Python `None` becomes the
empty cell. -/
inductive Cell where
  | str : List Char → Cell
  | int : Int → Cell
  | num : Dec → Cell
  | empty : Cell
deriving DecidableEq, Repr

/-- An optional float as a CSV cell. -/
def optCell : Option Dec → Cell
  | none => .empty
  | some v => .num v

/-- The row `_append_to_csv` writes for one record
(`dsi_final_structured_extractor.py` lines 320–343): the 11 metadata
cells in order, then `data.get(key)` for each monthly column in
metric-first order. -/
def toRow (d : StructData) : List Cell :=
  [Cell.str d.file, Cell.int d.page, Cell.int d.year, Cell.str d.station_code,
   Cell.str d.station_name, Cell.str d.coordinates,
   optCell d.catchment_area_km2, optCell d.annual_avg_flow_m3s,
   optCell d.annual_total_m3, optCell d.mm_total, optCell d.avg_ltsnkm2] ++
  sMetrics.flatMap (fun metric => sMonths.map (fun month => optCell (dictGet (sKey month metric) d.monthly)))

/-- The duplicate key `(result['station_code'], year)` of
`process_all_pdfs_structured`. -/
def rowKey (d : StructData) : List Char × Int :=
  (d.station_code, d.year)

/-- The `for result in results:` loop of `process_all_pdfs_structured`
(`dsi_final_structured_extractor.py` lines 363–376), run over the
flattened per-PDF result lists: a record whose `(station_code, year)`
key is already in `processed_stations` is skipped with a warning,
otherwise it is appended and its key recorded. -/
def processLoop (seen : List (List Char × Int)) : List StructData → List StructData
  | [] => []
  | r :: rs =>
    if rowKey r ∈ seen then processLoop seen rs
    else r :: processLoop (rowKey r :: seen) rs

/-- The CSV contents produced by one run of `DSIFinalExtractor`: the
constructor's `_initialize_csv` writes the header row unconditionally
(before any PDF is read), and `process_all_pdfs_structured` then appends
one row per non-duplicate extracted record. -/
def structuredRun (results : List StructData) : List (List Cell) :=
  (csvHeaders.map Cell.str) :: (processLoop [] results).map toRow

/-- The write decision of `process_pdf` (`new_pdf_reader_2020.py` lines
354–361): `if all_results: df.to_csv(...) else: print("No data
extracted!")` — `none` models "no file written". -/
def newPdfWrite (results : List α) : Option (List α) :=
  match results with
  | [] => none
  | r :: rs => some (r :: rs)

example : structuredRun [] = [csvHeaders.map Cell.str] := by decide
example : csvHeaders.length = 83 := by decide

/-!
## Monthly-table extraction (claims C2, C8)

`extract_monthly_data` of `new_pdf_reader_2020.py` (lines 153–209) keyed
by the labels `Maks., Min., Ortalama, LT/SN/Km2, AKIM mm., MİL. M3`, and
the monthly part of `parse_block` of `table_arranger.py` (lines 30–55).
-/

/-- The `labels` list of `extract_monthly_data`. -/
def npLabels : List (List Char) :=
  ["Maks.", "Min.", "Ortalama", "LT/SN/Km2", "AKIM mm.", "MİL. M3"].map String.data

/-- The `suffixes` list of `extract_monthly_data`. -/
def npSuffixes : List (List Char) :=
  ["max_flow_m3s", "min_flow_m3s", "avg_flow_m3s", "lt_sn_km2", "mm", "mil_m3"].map String.data

/-- `month_short` of `extract_monthly_data` and `MONTHS` of
`table_arranger.py` coincide with `self.months` of the structured
extractor (`sMonths`). -/
def npField (mi li : Nat) : List Char :=
  (sMonths.getD mi []) ++ '_' :: (npSuffixes.getD li [])

/-- Case-insensitive (`re.IGNORECASE`) match of the escaped label
against the head of the line; returns the remainder. -/
def ciMatchRest : List Char → List Char → Option (List Char)
  | [], rest => some rest
  | _ :: _, [] => none
  | p :: ps, c :: cs => if asciiCI p c then ciMatchRest ps cs else none

/-- `re.match(rf"^{re.escape(label)}\s+", line, re.IGNORECASE)`: the
label case-insensitively, then at least one whitespace character. -/
def labelMatchCI (label line : List Char) : Bool :=
  match ciMatchRest label line with
  | some (c :: _) => isPySpace c
  | _ => false

/-- `line.startswith(label) or re.match(rf"^{re.escape(label)}\s+", line,
re.IGNORECASE)`. -/
def labelMatch (label line : List Char) : Bool :=
  label.isPrefixOf line ∨ labelMatchCI label line

/-- Index of the first label (in list order) matching the line. -/
def findLabelGo (line : List Char) (i : Nat) : List (List Char) → Option Nat
  | [] => none
  | lab :: rest =>
    if labelMatch lab line then some i else findLabelGo line (i + 1) rest

/-- The `for label in labels:` search of `extract_monthly_data`. -/
def findLabel (line : List Char) : Option Nat :=
  findLabelGo line 0 npLabels

/-- `dict[key] = value`: replace an existing entry, else append
(insertion order preserved, as for a Python dict). -/
def upsert (md : List (List Char × Option Dec)) (k : List Char) (v : Option Dec) :
    List (List Char × Option Dec) :=
  if md.any (fun p => p.1 = k) then md.map (fun p => if p.1 = k then (k, v) else p)
  else md ++ [(k, v)]

/-- Flushing one label's collected values into `monthly_data`:
`monthly_data[f"{month}_{suffix}"] = current_values[idx] if idx <
len(current_values) else 0.0` for the 12 months. -/
def npFlush (li : Nat) (vals : List (Option Dec)) (md : List (List Char × Option Dec)) :
    List (List Char × Option Dec) :=
  (List.range 12).foldl (fun md mi => upsert md (npField mi li) (vals.getD mi (some Dec.zero))) md

/-- The loop state of `extract_monthly_data`. -/
structure MonState where
  current_label : Option Nat
  current_values : List (Option Dec)
  monthly_data : List (List Char × Option Dec)

/-- One iteration of the `for i, line in enumerate(lines)` loop of
`extract_monthly_data`.  On a label line the previous label is flushed
(only when its value list is non-empty — Python truthiness), the label
is replaced and the numbers of the rest of the line
(`re.findall(r"[\d,\.]+", …)`, which silently drops tokens like `KURU`)
are collected through `extract_number`; on any other line numbers are
appended to the current label's values. -/
def monStep (st : MonState) (rawLine : List Char) : MonState :=
  let line := pyStrip rawLine
  if line = [] then st
  else
    match findLabel line with
    | some li =>
      let md :=
        match st.current_label, st.current_values with
        | some prev, v :: vs => npFlush prev (v :: vs) st.monthly_data
        | _, _ => st.monthly_data
      let rest := pyStrip (line.drop (npLabels.getD li []).length)
      let vals := (runs isNumCapChar rest).map (fun n => extract_number n false)
      ⟨some li, vals, md⟩
    | none =>
      match st.current_label with
      | some _ =>
        { st with current_values :=
            st.current_values ++ (runs isNumCapChar line).map (fun n => extract_number n false) }
      | none => st

/-- `extract_monthly_data(lines)` of `new_pdf_reader_2020.py`: fold the
line loop, then flush the last label. -/
def extract_monthly_data (lines : List (List Char)) : List (List Char × Option Dec) :=
  let st := lines.foldl monStep ⟨none, [], []⟩
  match st.current_label, st.current_values with
  | some li, v :: vs => npFlush li (v :: vs) st.monthly_data
  | _, _ => st.monthly_data

/-!
### `parse_block` (monthly part) of `table_arranger.py`

Its per-label regex is `rf"{label}\s+([0-9\.\,\sKURU]+)"` with
`re.IGNORECASE` and the label *not* escaped, so a `.` in a label matches
any character, and the capture class also admits whitespace and the
letters K, U, R (hence whole `KURU` tokens).
-/

/-- The label part of the unescaped pattern: `.` is a wildcard
(anything but a newline), other characters match case-insensitively. -/
def taPatChars : List Char → List Char → Option (List Char)
  | [], rest => some rest
  | _ :: _, [] => none
  | p :: ps, c :: cs =>
    if (p = '.' ∧ ¬ c = '\n') ∨ asciiCI p c then taPatChars ps cs else none

/-- The capture class `[0-9\.\,\sKURU]` under `re.IGNORECASE`. -/
def isTableCap (c : Char) : Bool :=
  c.isDigit ∨ c = '.' ∨ c = ',' ∨ isPySpace c ∨
  c = 'K' ∨ c = 'k' ∨ c = 'U' ∨ c = 'u' ∨ c = 'R' ∨ c = 'r'

/-- `\s+([0-9\.\,\sKURU]+)` after the label: greedy `\s+`, then a
non-empty greedy capture; when everything the class can take is
whitespace, `\s+` backtracks one character so the capture still gets
one. -/
def taAfterLabel (rest : List Char) : Option (List Char) :=
  let w := rest.takeWhile isPySpace
  if w = [] then none
  else
    let g := rest.takeWhile isTableCap
    if w.length < g.length then some (g.drop w.length)
    else if 2 ≤ w.length then some [w.getLastD ' ']
    else none

/-- `re.search` of the label pattern: leftmost position where the label
and its capture both match. -/
def taSearch (label : List Char) : List Char → Option (List Char)
  | [] => none
  | c :: cs =>
    match taPatChars label (c :: cs) with
    | some rest =>
      match taAfterLabel rest with
      | some cap => some cap
      | none => taSearch label cs
    | none => taSearch label cs

/-- `nums` of `parse_block`: split the capture on whitespace, clean each
token (`KURU` ↦ `None`), truncate to 12 or pad with `None` to 12. -/
def taMonthVals (cap : List Char) : List (Option Dec) :=
  let nums := (pySplit cap).map clean_num_ta
  if 12 ≤ nums.length then nums.take 12 else nums ++ List.replicate (12 - nums.length) none

/-- The column name `f"{month}_{key}"` of `table_arranger.py`. -/
def taKey (month key : List Char) : List Char :=
  month ++ '_' :: key

/-- Assign the 12 monthly values for one metric key. -/
def taAssign (key : List Char) (vals : List (Option Dec))
    (data : List (List Char × Option Dec)) : List (List Char × Option Dec) :=
  (List.range 12).foldl (fun d i => upsert d (taKey (sMonths.getD i []) key) (vals.getD i none)) data

/-- The `patterns` dict of `parse_block` (insertion order). -/
def taPatterns : List (List Char × List Char) :=
  [("Maks.", "max"), ("Min.", "min"), ("Ortalama", "avg"),
   ("LT/SN/Km2", "ltsnkm2"), ("AKIM mm.", "mm"), ("MİL. M3", "mil_m3")].map
    (fun p => (p.1.data, p.2.data))

/-- The monthly-value part of `parse_block(block)` of
`table_arranger.py` (lines 30–55): for each label in order, search the
block; on a match assign the 12 cleaned values, otherwise assign `None`
to all 12 months of that metric. -/
def parse_block_monthly (block : List Char) : List (List Char × Option Dec) :=
  taPatterns.foldl
    (fun data p =>
      match taSearch p.1 block with
      | some cap => taAssign p.2 (taMonthVals cap) data
      | none =>
        (List.range 12).foldl (fun d i => upsert d (taKey (sMonths.getD i []) p.2) none) data)
    []

example :
    alookup "oct_max_flow_m3s".data
      (extract_monthly_data
        ["Maks. 0,54 1,32 0,62 KURU 2,10 3,10 4,10 5,10 6,10 7,10 8,10 9,10".data]) =
      some (some ⟨54, 2⟩) := by decide
example :
    alookup "jan_max_flow_m3s".data
      (extract_monthly_data
        ["Maks. 0,54 1,32 0,62 KURU 2,10 3,10 4,10 5,10 6,10 7,10 8,10 9,10".data]) =
      some (some ⟨210, 2⟩) := by decide
example :
    alookup "oct_max".data
      (parse_block_monthly
        "Maks. 0,54 1,32 0,62 KURU 2,10 3,10 4,10 5,10 6,10 7,10 8,10 9,10".data) =
      some (some ⟨54, 2⟩) := by decide
example :
    alookup "jan_max".data
      (parse_block_monthly
        "Maks. 0,54 1,32 0,62 KURU 2,10 3,10 4,10 5,10 6,10 7,10 8,10 9,10".data) =
      some none := by decide

/-!
## The independent field-extraction loop (claim C8)

`_extract_station_data_structured` (`dsi_final_structured_extractor.py`
lines 219–227) extracts the header fields with one pass over the lines:

```python
coordinates = None; catchment_area = None; annual_avg_flow = None
for line in lines:
    if not coordinates: coordinates = self._extract_coordinates(line)
    if not catchment_area: catchment_area = self._extract_catchment_area(line)
    if not annual_avg_flow: annual_avg_flow = self._extract_annual_avg_flow(line, year)
```

The loop is modelled generically in the three per-line extractors, which
are pure functions of the line (`_extract_coordinates`,
`_extract_catchment_area`, `_extract_annual_avg_flow year` in the
source).
-/

/-- Python truthiness of an optional float: `None` and `0.0` are falsy
(`d.m = 0` is exactly `d.toRat = 0`). -/
def pyTruthyQ : Option Dec → Bool
  | none => false
  | some d => ¬ d.m = 0

/-- Python truthiness of an optional string: `None` and `""` are
falsy. -/
def pyTruthyS : Option (List Char) → Bool
  | none => false
  | some s => ¬ s = []

/-- The interleaved three-field loop, carrying the three accumulators
exactly as the source does. -/
def fieldLoopGo (fc : List Char → Option (List Char)) (fa ff : List Char → Option Dec) :
    List (List Char) → Option (List Char) → Option Dec → Option Dec →
    Option (List Char) × Option Dec × Option Dec
  | [], c, a, f => (c, a, f)
  | l :: ls, c, a, f =>
    fieldLoopGo fc fa ff ls
      (if pyTruthyS c then c else fc l)
      (if pyTruthyQ a then a else fa l)
      (if pyTruthyQ f then f else ff l)

/-- The source loop started from the three `None` initialisations. -/
def fieldLoop (fc : List Char → Option (List Char)) (fa ff : List Char → Option Dec)
    (lines : List (List Char)) : Option (List Char) × Option Dec × Option Dec :=
  fieldLoopGo fc fa ff lines none none none

/-- A single-field scan: the same loop reduced to one accumulator. -/
def fieldScanS (fc : List Char → Option (List Char)) :
    List (List Char) → Option (List Char) → Option (List Char)
  | [], c => c
  | l :: ls, c => fieldScanS fc ls (if pyTruthyS c then c else fc l)

/-- A single-field scan for a numeric field. -/
def fieldScanQ (fa : List Char → Option Dec) :
    List (List Char) → Option Dec → Option Dec
  | [], a => a
  | l :: ls, a => fieldScanQ fa ls (if pyTruthyQ a then a else fa l)

/-- The same loop with the three per-line extraction statements written
in the reverse order (flow, then area, then coordinates). -/
def fieldLoopRevGo (fc : List Char → Option (List Char)) (fa ff : List Char → Option Dec) :
    List (List Char) → Option (List Char) → Option Dec → Option Dec →
    Option (List Char) × Option Dec × Option Dec
  | [], c, a, f => (c, a, f)
  | l :: ls, c, a, f =>
    let f2 := if pyTruthyQ f then f else ff l
    let a2 := if pyTruthyQ a then a else fa l
    let c2 := if pyTruthyS c then c else fc l
    fieldLoopRevGo fc fa ff ls c2 a2 f2

/-- The reversed-statement loop from the `None` initialisations. -/
def fieldLoopRev (fc : List Char → Option (List Char)) (fa ff : List Char → Option Dec)
    (lines : List (List Char)) : Option (List Char) × Option Dec × Option Dec :=
  fieldLoopRevGo fc fa ff lines none none none

/-!
## General lemmas about the string primitives
-/

theorem isDigit_ne {c d : Char} (h : c.isDigit = true) (hd : d.isDigit = false) :
    ¬ c = d := by
  intro hc
  subst hc
  rw [h] at hd
  cases hd

theorem isPySpace_elim {c : Char} (h : isPySpace c = true) :
    c = ' ' ∨ c = '\t' ∨ c = '\n' ∨ c = '\r' ∨ c = '\x0c' ∨ c = '\x0b' := by
  simpa [isPySpace] using h

theorem isDigit_not_space {c : Char} (h : c.isDigit = true) : isPySpace c = false := by
  cases hc : isPySpace c
  · rfl
  · rcases isPySpace_elim hc with h1 | h1 | h1 | h1 | h1 | h1 <;> subst h1 <;>
      exact absurd h (by decide)

theorem takeWhile_all {α : Type} (p : α → Bool) (l : List α)
    (hall : ∀ x ∈ l, p x = true) : l.takeWhile p = l := by
  induction l with
  | nil => rfl
  | cons x xs ih =>
    have hx := hall x (List.mem_cons_self x xs)
    simp only [List.takeWhile_cons, hx, if_true]
    rw [ih (fun y hy => hall y (List.mem_cons_of_mem x hy))]

theorem dropWhile_all {α : Type} (p : α → Bool) (l : List α)
    (hall : ∀ x ∈ l, p x = true) : l.dropWhile p = [] := by
  induction l with
  | nil => rfl
  | cons x xs ih =>
    have hx := hall x (List.mem_cons_self x xs)
    simp only [List.dropWhile_cons, hx, if_true]
    exact ih (fun y hy => hall y (List.mem_cons_of_mem x hy))

theorem takeWhile_all_append {α : Type} (p : α → Bool) (a : List α) (c : α) (b : List α)
    (hall : ∀ x ∈ a, p x = true) (hc : p c = false) :
    (a ++ c :: b).takeWhile p = a := by
  induction a with
  | nil => simp [List.takeWhile_cons, hc]
  | cons x xs ih =>
    have hx := hall x (List.mem_cons_self x xs)
    simp only [List.cons_append, List.takeWhile_cons, hx, if_true, List.cons.injEq, true_and]
    exact ih (fun y hy => hall y (List.mem_cons_of_mem x hy))

theorem dropWhile_all_append {α : Type} (p : α → Bool) (a : List α) (c : α) (b : List α)
    (hall : ∀ x ∈ a, p x = true) (hc : p c = false) :
    (a ++ c :: b).dropWhile p = c :: b := by
  induction a with
  | nil => simp [List.dropWhile_cons, hc]
  | cons x xs ih =>
    have hx := hall x (List.mem_cons_self x xs)
    simp only [List.cons_append, List.dropWhile_cons, hx, if_true]
    exact ih (fun y hy => hall y (List.mem_cons_of_mem x hy))

theorem dropWhile_none {α : Type} (p : α → Bool) (l : List α)
    (hall : ∀ x ∈ l, p x = false) : l.dropWhile p = l := by
  cases l with
  | nil => rfl
  | cons x xs => simp [List.dropWhile_cons, hall x (List.mem_cons_self x xs)]

theorem pyStrip_eq_self (l : List Char) (hall : ∀ x ∈ l, isPySpace x = false) :
    pyStrip l = l := by
  unfold pyStrip
  rw [dropWhile_none isPySpace l hall]
  rw [dropWhile_none isPySpace l.reverse (fun x hx => hall x (List.mem_reverse.mp hx))]
  exact List.reverse_reverse l

theorem runsGo_all (p : Char → Bool) (l : List Char) :
    ∀ acc, (∀ x ∈ l, p x = true) →
      runsGo p acc l = if acc.reverse ++ l = [] then [] else [acc.reverse ++ l] := by
  induction l with
  | nil =>
    intro acc _
    simp only [runsGo, List.append_nil]
    by_cases h : acc = []
    · subst h; rfl
    · rw [if_neg h, if_neg (fun hr => h (List.reverse_eq_nil_iff.mp hr))]
  | cons c cs ih =>
    intro acc hall
    have hc := hall c (List.mem_cons_self c cs)
    simp only [runsGo, hc, if_true]
    rw [ih (c :: acc) (fun x hx => hall x (List.mem_cons_of_mem c hx))]
    have hform : (c :: acc).reverse ++ cs = acc.reverse ++ c :: cs := by
      simp [List.reverse_cons, List.append_assoc]
    rw [hform]

theorem runs_all_eq (p : Char → Bool) (l : List Char) (hne : ¬ l = [])
    (hall : ∀ x ∈ l, p x = true) : runs p l = [l] := by
  unfold runs
  rw [runsGo_all p l [] hall]
  simp [hne]

theorem map_replaceComma_digits : ∀ (a : List Char), (∀ x ∈ a, x.isDigit = true) →
    a.map (fun c => if c = ',' then '.' else c) = a
  | [], _ => rfl
  | x :: xs, ha => by
    rw [List.map_cons, if_neg (isDigit_ne (ha x (List.mem_cons_self x xs)) (by decide))]
    rw [map_replaceComma_digits xs (fun y hy => ha y (List.mem_cons_of_mem x hy))]

theorem replaceCommaDot_append_comma (a b : List Char)
    (ha : ∀ x ∈ a, x.isDigit = true) (hb : ∀ x ∈ b, x.isDigit = true) :
    replaceCommaDot (a ++ ',' :: b) = a ++ '.' :: b := by
  unfold replaceCommaDot
  rw [List.map_append, List.map_cons, if_pos rfl]
  rw [map_replaceComma_digits a ha, map_replaceComma_digits b hb]

theorem parseFloat_append_dot (a b : List Char) (ha : ¬ a = [])
    (hda : ∀ x ∈ a, x.isDigit = true) (hdb : ∀ x ∈ b, x.isDigit = true) :
    parseFloat (a ++ '.' :: b) =
      some ⟨(digitsVal a * 10 ^ b.length + digitsVal b : ℕ), b.length⟩ := by
  obtain ⟨a0, a', rfl⟩ : ∃ a0 a', a = a0 :: a' := by
    cases a with
    | nil => exact absurd rfl ha
    | cons x xs => exact ⟨x, xs, rfl⟩
  have h0 := hda a0 (List.mem_cons_self a0 a')
  have hm : ¬ a0 = '-' := isDigit_ne h0 (by decide)
  have hp : ¬ a0 = '+' := isDigit_ne h0 (by decide)
  have ht : ((a0 :: a') ++ '.' :: b).takeWhile Char.isDigit = a0 :: a' :=
    takeWhile_all_append Char.isDigit (a0 :: a') '.' b hda (by decide)
  have hd : ((a0 :: a') ++ '.' :: b).dropWhile Char.isDigit = '.' :: b :=
    dropWhile_all_append Char.isDigit (a0 :: a') '.' b hda (by decide)
  have hfr : b.takeWhile Char.isDigit = b := takeWhile_all Char.isDigit b hdb
  have hfr2 : b.dropWhile Char.isDigit = [] := dropWhile_all Char.isDigit b hdb
  unfold parseFloat
  simp only [List.cons_append, List.head?_cons, Option.some.injEq, hm, hp] at ht hd ⊢
  simp only [or_self, if_false, decide_eq_true_eq, ht, hd, if_neg (List.cons_ne_nil '.' b)]
  simp only [List.head?_cons, List.tail_cons, hfr, hfr2, not_true, if_true, if_pos rfl]
  simp only [if_neg (List.cons_ne_nil a0 a'), decide_False, Bool.false_eq_true, if_false,
    one_mul, not_true_eq_false]
  norm_num
  intro hcontr
  exact absurd hcontr (List.cons_ne_nil a0 a')

/-- The shape `\d+,\d+` of claim C3. -/
def isCommaDecimal (s : List Char) : Prop :=
  ∃ a b, s = a ++ ',' :: b ∧ ¬ a = [] ∧ ¬ b = [] ∧
    (∀ x ∈ a, x.isDigit = true) ∧ (∀ x ∈ b, x.isDigit = true)

instance (s : List Char) : Decidable (isCommaDecimal s) := by
  refine decidable_of_iff
    (s.takeWhile Char.isDigit ≠ [] ∧
     s.dropWhile Char.isDigit ≠ [] ∧
     (s.dropWhile Char.isDigit).head? = some ',' ∧
     (s.dropWhile Char.isDigit).tail ≠ [] ∧
     ∀ x ∈ (s.dropWhile Char.isDigit).tail, x.isDigit = true) ?_
  constructor
  · rintro ⟨h1, h2, h3, h4, h5⟩
    refine ⟨s.takeWhile Char.isDigit, (s.dropWhile Char.isDigit).tail, ?_, h1, h4,
      fun x hx => List.mem_takeWhile_imp hx, h5⟩
    have hsplit := List.takeWhile_append_dropWhile (p := Char.isDigit) (l := s)
    obtain ⟨c, cs, hc⟩ : ∃ c cs, s.dropWhile Char.isDigit = c :: cs := by
      cases hd : s.dropWhile Char.isDigit with
      | nil => exact absurd hd h2
      | cons c cs => exact ⟨c, cs, rfl⟩
    rw [hc] at h3
    have hcomma : c = ',' := by simpa using h3
    rw [hc, List.tail_cons]
    conv_lhs => rw [← hsplit, hc, hcomma]
  · rintro ⟨a, b, rfl, ha, hb, hda, hdb⟩
    have ht : (a ++ ',' :: b).takeWhile Char.isDigit = a :=
      takeWhile_all_append Char.isDigit a ',' b hda (by decide)
    have hd : (a ++ ',' :: b).dropWhile Char.isDigit = ',' :: b :=
      dropWhile_all_append Char.isDigit a ',' b hda (by decide)
    rw [ht, hd]
    exact ⟨ha, List.cons_ne_nil _ _, rfl, hb, hdb⟩

/-- **Claim C3** — For every numeric string of the form `\d+,\d+`, the
numeric normalizer returns a float equal to parsing the same string with
its comma replaced by a dot.  This holds for all three normalizers of
the cited scripts (`clean_num` of `catchment_data_km2.py`, `clean_num`
of `table_arranger.py`, `_normalize_number` of
`dsi_final_structured_extractor.py`): each returns exactly
`float(s.replace(",", "."))`. -/
theorem claimC3 (s : List Char) (h : isCommaDecimal s) :
    ∃ d, parseFloat (replaceCommaDot s) = some d ∧ clean_num s = some d ∧
      clean_num_ta s = some d ∧ normalize_number s = some d := by
  obtain ⟨a, b, rfl, ha, hb, hda, hdb⟩ := h
  have hrep : replaceCommaDot (a ++ ',' :: b) = a ++ '.' :: b :=
    replaceCommaDot_append_comma a b hda hdb
  have hnospace : ∀ x ∈ a ++ ',' :: b, isPySpace x = false := by
    intro x hx
    rcases List.mem_append.mp hx with h1 | h1
    · exact isDigit_not_space (hda x h1)
    · rcases List.mem_cons.mp h1 with h2 | h2
      · subst h2; rfl
      · exact isDigit_not_space (hdb x h2)
  have hstrip : pyStrip (a ++ ',' :: b) = a ++ ',' :: b := pyStrip_eq_self _ hnospace
  have hparse := parseFloat_append_dot a b ha hda hdb
  have hdotmem : ('.' : Char) ∈ a ++ '.' :: b :=
    List.mem_append.mpr (Or.inr (List.mem_cons_self _ _))
  rw [hrep]
  refine ⟨_, hparse, ?_, ?_, ?_⟩
  · unfold clean_num
    rw [hstrip, hrep, hparse]
  · unfold clean_num_ta
    rw [hstrip, hrep]
    have hku : ¬ ((a ++ '.' :: b).map pyUpper = "KURU".data ∨
        a ++ '.' :: b = "nan".data ∨ a ++ '.' :: b = []) := by
      rintro (h1 | h1 | h1)
      · have hmem : pyUpper '.' ∈ (a ++ '.' :: b).map pyUpper :=
          List.mem_map_of_mem pyUpper hdotmem
        rw [h1] at hmem
        have hdot : ('.' : Char) ∈ "KURU".data := by
          have hpu : pyUpper '.' = '.' := by decide
          rwa [hpu] at hmem
        exact absurd hdot (by decide)
      · have : ('.' : Char) ∈ "nan".data := by rw [← h1]; exact hdotmem
        exact absurd this (by decide)
      · rw [h1] at hdotmem
        exact absurd hdotmem (List.not_mem_nil '.')
    rw [if_neg hku, hparse]
  · unfold normalize_number
    have hne : ¬ (a ++ ',' :: b = [] ∨ pyStrip (a ++ ',' :: b) = []) := by
      rw [hstrip]
      rintro (h1 | h1) <;>
        exact absurd h1 (by
          intro hh
          have : (',' : Char) ∈ ([] : List Char) := by
            rw [← hh]; exact List.mem_append.mpr (Or.inr (List.mem_cons_self _ _))
          exact absurd this (List.not_mem_nil ','))
    rw [if_neg hne, hstrip, hrep]
    have hremove : removeSpaces (a ++ '.' :: b) = a ++ '.' :: b := by
      unfold removeSpaces
      rw [List.filter_eq_self]
      intro x hx
      rcases List.mem_append.mp hx with h1 | h1
      · simpa using isDigit_ne (hda x h1) (by decide)
      · rcases List.mem_cons.mp h1 with h2 | h2
        · subst h2; decide
        · simpa using isDigit_ne (hdb x h2) (by decide)
    rw [hremove]
    have hruns : runs (fun c => c.isDigit ∨ c = '.') (a ++ '.' :: b) = [a ++ '.' :: b] := by
      apply runs_all_eq
      · intro hh
        rw [hh] at hdotmem
        exact absurd hdotmem (List.not_mem_nil '.')
      · intro x hx
        rcases List.mem_append.mp hx with h1 | h1
        · simp [hda x h1]
        · rcases List.mem_cons.mp h1 with h2 | h2
          · subst h2; decide
          · simp [hdb x h2]
    rw [hruns]
    exact hparse

/-- Witness for C3 at the concrete string `"210,00"`. -/
theorem claimC3_witness :
    ∃ d, parseFloat (replaceCommaDot "210,00".data) = some d ∧
      clean_num "210,00".data = some d ∧ clean_num_ta "210,00".data = some d ∧
      normalize_number "210,00".data = some d :=
  claimC3 "210,00".data (by decide)

/-- **Claim C10** — `extract_number` (with `allow_negative` at its
default `False`) is total and never raises: every input yields
`some` float, that float is `≥ 0`, the sentinels `"KURU"`, `"-----"`,
the empty string and unparseable strings map to `0.0`, and a parsed
negative value is clamped to `0.0`. -/
theorem claimC10 :
    (∀ t : List Char, ∃ d, extract_number t false = some d ∧ 0 ≤ d.toRat) ∧
    extract_number "KURU".data false = some Dec.zero ∧
    extract_number "-----".data false = some Dec.zero ∧
    extract_number [] false = some Dec.zero ∧
    extract_number "abc".data false = some Dec.zero ∧
    extract_number "-3,5".data false = some Dec.zero := by
  refine ⟨?_, by decide, by decide, by decide, by decide, by decide⟩
  intro t
  have hz : (0 : ℚ) ≤ Dec.zero.toRat := Dec.toRat_nonneg_of Dec.zero le_rfl
  unfold extract_number
  split
  · exact ⟨Dec.zero, rfl, hz⟩
  · cases h1 : (findFirstNum (replaceCommaDot t)).bind parseFloat with
    | none => exact ⟨Dec.zero, rfl, hz⟩
    | some v =>
      by_cases hneg : v.m < 0
      · refine ⟨Dec.zero, ?_, hz⟩
        show (if false = false ∧ v.m < 0 then some Dec.zero else some v) = some Dec.zero
        rw [if_pos ⟨rfl, hneg⟩]
      · refine ⟨v, ?_, Dec.toRat_nonneg_of v (not_lt.mp hneg)⟩
        show (if false = false ∧ v.m < 0 then some Dec.zero else some v) = some v
        rw [if_neg (fun hc => hneg hc.2)]

/-- **Claim C6** — On the line `"D22A093 TURNASUYU CUMHURİYET KÖYÜ"`,
both station-info extractors (`extract_station_info` of
`new_pdf_reader_2020.py` and `parse_station_info` of
`pdf_flow_extractor.py`) return station code `D22A093` and station name
`TURNASUYU CUMHURİYET KÖYÜ`. -/
theorem claimC6 :
    extract_station_info ["D22A093 TURNASUYU CUMHURİYET KÖYÜ".data] =
      some ("D22A093".data, "TURNASUYU CUMHURİYET KÖYÜ".data) ∧
    parse_station_info "D22A093 TURNASUYU CUMHURİYET KÖYÜ".data =
      (some "D22A093".data, some "TURNASUYU CUMHURİYET KÖYÜ".data) :=
  ⟨by decide, by decide⟩

/-- The monthly row of claim C2, the fourth value token being `KURU`
and the fifth `2,10`. -/
def kuruRow : List Char :=
  "Maks. 0,54 1,32 0,62 KURU 2,10 3,10 4,10 5,10 6,10 7,10 8,10 9,10".data

/-- **Claim C2 (code bug)** — On the row
`"Maks. 0,54 1,32 0,62 KURU 2,10 …"`, `extract_monthly_data` of
`new_pdf_reader_2020.py` does assign `0.54` to the first month, but its
token scan `re.findall(r"[\d,\.]+", …)` silently drops the `KURU`
token, so the fourth month (`jan`) receives `2.10` — the *fifth*
column's number — instead of `0.0` or an absent value; its own
`extract_number` maps a literal `"KURU"` token to `0.0`, but that
branch is unreachable here.  `parse_block` of `table_arranger.py`, whose
capture class retains `KURU` tokens, behaves as the claim states
(fourth month absent). -/
theorem claimC2_code_bug :
    alookup "oct_max_flow_m3s".data (extract_monthly_data [kuruRow]) = some (some ⟨54, 2⟩) ∧
    alookup "jan_max_flow_m3s".data (extract_monthly_data [kuruRow]) = some (some ⟨210, 2⟩) ∧
    extract_number "2,10".data false = some ⟨210, 2⟩ ∧
    ¬ (⟨210, 2⟩ : Dec).toRat = 0 ∧
    extract_number "KURU".data false = some Dec.zero ∧
    alookup "oct_max".data (parse_block_monthly kuruRow) = some (some ⟨54, 2⟩) ∧
    alookup "jan_max".data (parse_block_monthly kuruRow) = some none :=
  ⟨by decide, by decide, by decide, Dec.toRat_ne_zero_of _ (by norm_num), by decide,
    by decide, by decide⟩

/-- The page of claim C1's counterexample: the first line matching the
station pattern carries a code outside the target set, a later line a
code inside it. -/
def c1Page : List Char := "E99A999 FOO\nD22A093 BAR".data

/-- The target set of claim C1's counterexample. -/
def c1Targets : List (List Char) := ["D22A093".data]

/-- **Claim C1 counterexample** — The claim says the locator takes the
FIRST line matching `^[DE]\d{2}A\d{3}` and returns "not found" when its
code is outside the target set.  On this page that reading returns
"not found" (`locateStationClaim`), but the code
(`catchment_data_km2.py` lines 54–62, `locateStation`) merely
`continue`s past the non-target match and proceeds with `D22A093` from
a later line. -/
theorem claimC1_counterexample :
    locateStationClaim c1Targets (toLines c1Page) = none ∧
    locateStation c1Targets (toLines c1Page) = some "D22A093".data :=
  ⟨by decide, by decide⟩

theorem locateStation_eq (targets : List (List Char)) :
    ∀ lines : List (List Char),
      locateStation targets lines =
        ((lines.filterMap (fun l => (matchStationLine l).map (List.map pyUpper))).filter
          (fun c => decide (c ∈ targets))).head?
  | [] => rfl
  | l :: ls => by
    cases hm : matchStationLine l with
    | none =>
      simp only [locateStation, hm, List.filterMap_cons, Option.map_none']
      exact locateStation_eq targets ls
    | some code =>
      simp only [locateStation, hm, List.filterMap_cons, Option.map_some']
      by_cases hmem : code.map pyUpper ∈ targets
      · rw [if_pos hmem, List.filter_cons, if_pos (by simpa using hmem)]
        rfl
      · rw [if_neg hmem, List.filter_cons, if_neg (by simpa using hmem)]
        exact locateStation_eq targets ls

/-- **Claim C1 (amended)** — The locator splits the page into non-empty
stripped lines and scans from the top for lines matching
`^[DE]\d{2}A\d{3}\s`; a matching line whose (uppercased) code is outside
the target set is skipped and scanning continues; the result is the
first matched code that lies in the target set, and "not found" is
returned exactly when no matching line carries a target code. -/
theorem claimC1 (targets : List (List Char)) (text : List Char) :
    locateStation targets (toLines text) =
      (((toLines text).filterMap (fun l => (matchStationLine l).map (List.map pyUpper))).filter
        (fun c => decide (c ∈ targets))).head? :=
  locateStation_eq targets (toLines text)


theorem catchScan_mem (targets lines : List (List Char)) (pno : Nat) :
    ∀ (susp : List (List Char)) (i : Nat) (rs : List CatchRecord),
      catchScan targets lines pno susp i = .ok rs →
      ∀ r ∈ rs, r.station_code ∈ targets
  | [], _, rs, h => by
    cases h
    intro r hr
    exact absurd hr (List.not_mem_nil r)
  | l :: ls, i, rs, h => by
    intro r hr
    have ih := fun rs2 (h2 : catchScan targets lines pno ls (i + 1) = .ok rs2)
      (hr2 : r ∈ rs2) => catchScan_mem targets lines pno ls (i + 1) rs2 h2 r hr2
    rw [catchScan] at h
    split at h
    · exact ih rs h hr
    · split at h
      · rename_i code hm hmem
        split at h
        · split at h
          · cases h
          · split at h
            · cases h
            · rename_i rs2 ht
              cases h
              rcases List.mem_cons.mp hr with h2 | h2
              · subst h2
                exact hmem
              · exact ih rs2 ht h2
        · exact ih rs h hr
      · exact ih rs h hr

theorem catchPages_mem (targets : List (List Char)) :
    ∀ (pages : List (List Char)) (pno : Nat) (rs : List CatchRecord),
      catchPages targets pages pno = .ok rs →
      ∀ r ∈ rs, r.station_code ∈ targets
  | [], _, rs, h => by
    cases h
    intro r hr
    exact absurd hr (List.not_mem_nil r)
  | text :: rest, pno, rs, h => by
    intro r hr
    rw [catchPages] at h
    split at h
    · exact catchPages_mem targets rest (pno + 1) rs h r hr
    · split at h
      · cases h
      · rename_i rs1 h1
        split at h
        · cases h
        · rename_i rs2 h2
          cases h
          rcases List.mem_append.mp hr with h3 | h3
          · exact catchScan_mem targets (toLines text) (pno + 1) (toLines text) 0 rs1 h1 r h3
          · exact catchPages_mem targets rest (pno + 1) rs2 h2 r h3

theorem structuredFindGo_mem (targets : List (List Char)) :
    ∀ (ls : List (List Char)) (c : List Char) (nm : Option (List Char)),
      structuredFindGo targets ls = some (c, nm) → c ∈ targets
  | [], _, _, h => by cases h
  | l :: ls, c, nm, h => by
    rw [structuredFindGo] at h
    split at h
    · rename_i code hf
      split at h
      · rename_i hmem
        cases h
        exact hmem
      · exact structuredFindGo_mem targets ls c nm h
    · exact structuredFindGo_mem targets ls c nm h

/-- **Claim C5** — Every record the extractors produce carries a
station code from the fixed allow-list: the records of
`extract_catchments` (`catchment_data_km2.py`), the station found by
`_extract_station_data_structured`
(`dsi_final_structured_extractor.py`) and the station admitted by
`parse_station_page`'s gate (`new_pdf_reader_2020.py`).  Pages whose
codes all lie outside the set produce no record.  The allow-list is a
parameter no function mutates, so it is unchanged for the whole run. -/
theorem claimC5 :
    (∀ (targets pages : List (List Char)) (rs : List CatchRecord),
       extract_catchments targets pages = .ok rs → ∀ r ∈ rs, r.station_code ∈ targets) ∧
    (∀ (targets lines : List (List Char)) (c : List Char) (nm : Option (List Char)),
       structuredFindStation targets lines = some (c, nm) → c ∈ targets) ∧
    (∀ (targets lines : List (List Char)) (c : List Char),
       parseStationGate targets lines = some c → c ∈ targets) := by
  refine ⟨?_, ?_, ?_⟩
  · intro targets pages rs h
    exact catchPages_mem targets pages 0 rs h
  · intro targets lines c nm h
    exact structuredFindGo_mem targets (evenIdx (lines.take 20)) c nm h
  · intro targets lines c h
    unfold parseStationGate at h
    split at h
    · cases h
    · rename_i code snd
      split at h
      · rename_i hmem
        cases h
        exact hmem
      · cases h

/-- Witness for C5: concrete extractions whose admitted codes are in
the respective target sets. -/
theorem claimC5_witness :
    ("D22A093".data ∈ c1Targets) ∧ ("D22A093".data ∈ c1Targets) ∧
    ("D22A093".data ∈ c1Targets) :=
  ⟨claimC5.1 c1Targets ["D22A093 X\nYAĞIŞ ALANI : 210,00 km2".data]
      [⟨"D22A093".data, ⟨21000, 2⟩, 1⟩] (by decide)
      ⟨"D22A093".data, ⟨21000, 2⟩, 1⟩ (by decide),
   claimC5.2.1 c1Targets ["junk".data, "x".data, "D22A093 B".data] "D22A093".data
      (some "B".data) (by decide),
   claimC5.2.2 c1Targets ["region".data, "D22A093 TURNASUYU".data] "D22A093".data (by decide)⟩

theorem processLoop_nodup :
    ∀ (rs : List StructData) (seen : List (List Char × Int)),
      ((processLoop seen rs).map rowKey).Nodup ∧
      ∀ k ∈ seen, k ∉ (processLoop seen rs).map rowKey
  | [], seen => by
    constructor
    · exact List.nodup_nil
    · intro k _ hin
      exact absurd hin (List.not_mem_nil k)
  | r :: rs, seen => by
    rw [processLoop]
    by_cases hmem : rowKey r ∈ seen
    · rw [if_pos hmem]
      exact processLoop_nodup rs seen
    · rw [if_neg hmem]
      obtain ⟨ih1, ih2⟩ := processLoop_nodup rs (rowKey r :: seen)
      constructor
      · rw [List.map_cons, List.nodup_cons]
        exact ⟨ih2 (rowKey r) (List.mem_cons_self _ _), ih1⟩
      · intro k hk hin
        rw [List.map_cons] at hin
        rcases List.mem_cons.mp hin with h1 | h1
        · exact hmem (h1 ▸ hk)
        · exact ih2 k (List.mem_cons_of_mem _ hk) h1

/-- **Claim C7** — One run of the structured extractor appends at most
one row per `(station_code, year)` pair: `process_all_pdfs_structured`
skips (with a warning) every record whose key is already in
`processed_stations`, so the keys of the assembled rows are pairwise
distinct. -/
theorem claimC7 (rs : List StructData) :
    ((processLoop [] rs).map rowKey).Nodup :=
  (processLoop_nodup rs []).1

theorem fieldLoopGo_split (fc : List Char → Option (List Char))
    (fa ff : List Char → Option Dec) :
    ∀ (lines : List (List Char)) (c : Option (List Char)) (a f : Option Dec),
      fieldLoopGo fc fa ff lines c a f =
        (fieldScanS fc lines c, fieldScanQ fa lines a, fieldScanQ ff lines f)
  | [], _, _, _ => rfl
  | _ :: ls, _, _, _ => fieldLoopGo_split fc fa ff ls _ _ _

theorem fieldLoopRevGo_eq (fc : List Char → Option (List Char))
    (fa ff : List Char → Option Dec) :
    ∀ (lines : List (List Char)) (c : Option (List Char)) (a f : Option Dec),
      fieldLoopRevGo fc fa ff lines c a f = fieldLoopGo fc fa ff lines c a f
  | [], _, _, _ => rfl
  | _ :: ls, _, _, _ => fieldLoopRevGo_eq fc fa ff ls _ _ _

/-- **Claim C8** — The field extractors are pure functions of the page
text alone, and the interleaved extraction loop of
`_extract_station_data_structured` carries no state shared between
fields: for arbitrary per-line extractors the loop equals the three
independent single-field scans, and reordering the extraction
statements (`fieldLoopRev`) changes nothing.  Extracting the fields in
any order therefore yields the same record. -/
theorem claimC8 (fc : List Char → Option (List Char)) (fa ff : List Char → Option Dec)
    (lines : List (List Char)) :
    fieldLoop fc fa ff lines =
      (fieldScanS fc lines none, fieldScanQ fa lines none, fieldScanQ ff lines none) ∧
    fieldLoopRev fc fa ff lines = fieldLoop fc fa ff lines :=
  ⟨fieldLoopGo_split fc fa ff lines none none none,
   fieldLoopRevGo_eq fc fa ff lines none none none⟩

/-- The page of claim C9's counterexample: a target station line
followed by a YAĞIŞ ALANI line whose capture `,,` makes `clean_num`
raise an uncaught `ValueError`. -/
def crashPage : List Char := "D22A093 X\nYAĞIŞ ALANI : ,,".data

/-- **Claim C9 counterexample** — The claim says nothing but a missing
input file is escalated to a fatal error.  But on an existing input
whose page contains `"YAĞIŞ ALANI : ,,"` after a target station line,
`clean_num` (`float(",,".replace(",", "."))`) raises an uncaught
`ValueError` and the run dies — a fatal outcome distinct from the
missing-input path. -/
theorem claimC9_counterexample :
    catchmentMain true ["D22A093".data] [crashPage] = .crashed ∧
    ¬ RunOutcome.crashed = RunOutcome.missingInput :=
  ⟨by decide, by decide⟩

/-- **Claim C9 (amended)** — A run whose input PDF does not exist
prints a message and ends without processing any page
(`catchmentMain false … = .missingInput` for every page list); in
addition, an unparseable numeric capture on a matched YAĞIŞ ALANI line
raises an uncaught `ValueError` that also terminates the run, and a run
on an existing input crashes exactly when the extraction raises. -/
theorem claimC9 (targets pages : List (List Char)) :
    catchmentMain false targets pages = .missingInput ∧
    (catchmentMain true targets pages = .crashed ↔
      extract_catchments targets pages = .error ()) := by
  constructor
  · rfl
  · unfold catchmentMain
    rw [if_neg (by simp)]
    cases h : extract_catchments targets pages with
    | error e =>
      cases e
      simp
    | ok rs =>
      cases rs <;> simp

/-- **Claim C4 counterexample** — The claim says a run that extracts
zero records writes no output file.  The structured extractor's
constructor (`_initialize_csv`) creates the CSV and writes the header
row before any PDF is read, so a zero-record run still leaves a
header-only output file. -/
theorem claimC4_counterexample :
    structuredRun [] = [csvHeaders.map Cell.str] ∧
    ¬ structuredRun [] = ([] : List (List Cell)) :=
  ⟨rfl, by decide⟩

/-- **Claim C4 (amended)** — For `catchment_data_km2.py` and
`new_pdf_reader_2020.py`, a zero-record run prints a warning and writes
no output file; the structured extractor instead initialises its CSV
with the header row at construction time, so even a zero-record run
leaves a header-only file.  In every script, runs with at least one
record write each (non-duplicate) record, and a record's absent fields
are written as empty cells: every row has the full header width and an
absent `catchment_area_km2` occupies column 6 as an empty cell. -/
theorem claimC4 :
    (∀ (targets pages : List (List Char)),
       extract_catchments targets pages = .ok [] →
       catchmentMain true targets pages = .warnedEmpty ∧
       outcomeFile (catchmentMain true targets pages) = none) ∧
    (∀ (rs : List CatchRecord), newPdfWrite rs = none ↔ rs = []) ∧
    (∀ (rs : List StructData) (d : StructData), d ∈ processLoop [] rs →
       toRow d ∈ (structuredRun rs).drop 1) ∧
    (∀ d : StructData, (toRow d).length = csvHeaders.length) ∧
    (∀ d : StructData, d.catchment_area_km2 = none →
       (toRow d).get? 6 = some Cell.empty) := by
  refine ⟨?_, ?_, ?_, ?_, ?_⟩
  · intro targets pages h
    unfold catchmentMain
    rw [if_neg (by simp), h]
    exact ⟨rfl, rfl⟩
  · intro rs
    cases rs <;> simp [newPdfWrite]
  · intro rs d hd
    unfold structuredRun
    rw [List.drop_succ_cons, List.drop_zero]
    exact List.mem_map_of_mem toRow hd
  · intro d
    rfl
  · intro d h
    have hg : (toRow d).get? 6 = some (optCell d.catchment_area_km2) := rfl
    rw [hg, h]
    rfl

/-- A concrete partial record (all numeric fields absent) for the C4
witness. -/
def c4Record : StructData :=
  ⟨"dsi_2020.pdf".data, 1, 2020, "D22A093".data, "N/A".data, "N/A".data,
   none, none, none, none, none, []⟩

/-- Witness for C4 at a run extracting zero catchment records and at a
concrete partial record. -/
theorem claimC4_witness :
    (catchmentMain true [] ["X".data] = .warnedEmpty ∧
     outcomeFile (catchmentMain true [] ["X".data]) = none) ∧
    (toRow c4Record).get? 6 = some Cell.empty :=
  ⟨claimC4.1 [] ["X".data] (by decide), claimC4.2.2.2.2 c4Record rfl⟩

/-- Witness for C9 at a concrete (empty) run. -/
theorem claimC9_witness :
    catchmentMain false [] [] = RunOutcome.missingInput ∧
    (catchmentMain true [] [] = RunOutcome.crashed ↔
      extract_catchments [] [] = .error ()) :=
  claimC9 [] []
